import Mathlib

/-!
Verification of the session and response-normalization layer of the
HybridRAG Streamlit app (`app.py`).

Python runtime values flowing through `_normalize_result`,
`_render_rich_answer` and the session message store are modelled by the
inductive type `PyVal` (floats are modelled as rationals).  Dicts are
modelled as association lists in insertion order; Python dicts have
unique keys, and lookup takes the first matching entry.
-/

/-- Model of the Python values the app manipulates.  `float` carries a
rational number standing for the IEEE value. -/
inductive PyVal where
  | str (s : String)
  | int (n : Int)
  | float (q : Rat)
  | bool (b : Bool)
  | none
  | list (xs : List PyVal)
  | dict (entries : List (String × PyVal))

/-- Python truthiness (`bool(v)`) over the modelled value domain. -/
def truthy : PyVal → Bool
  | PyVal.str s => if s = "" then false else true
  | PyVal.int n => if n = 0 then false else true
  | PyVal.float q => if q = 0 then false else true
  | PyVal.bool b => b
  | PyVal.none => false
  | PyVal.list xs => if xs.isEmpty then false else true
  | PyVal.dict d => if d.isEmpty then false else true

/-- Model of `isinstance(v, str)`. -/
def isStr : PyVal → Bool
  | PyVal.str _ => true
  | _ => false

/-- Model of `isinstance(v, dict)`. -/
def isDict : PyVal → Bool
  | PyVal.dict _ => true
  | _ => false

/-- Model of `isinstance(v, list)`. -/
def isList : PyVal → Bool
  | PyVal.list _ => true
  | _ => false

/-- Model of `isinstance(v, (int, float))`.  Python's `bool` is a subclass of
`int`, so booleans satisfy this check as well. -/
def isNumeric : PyVal → Bool
  | PyVal.int _ => true
  | PyVal.float _ => true
  | PyVal.bool _ => true
  | _ => false

/-- First-match lookup in a dict's entry list (Python dict keys are
unique, so this is plain dict lookup). -/
def dget : List (String × PyVal) → String → Option PyVal
  | [], _ => Option.none
  | (k, v) :: rest, key => if k = key then some v else dget rest key

/-- Model of `key in d`. -/
def hasKey (d : List (String × PyVal)) (key : String) : Bool :=
  (dget d key).isSome

/-- Model of `d.get(key)` — `None` when the key is absent. -/
def pyGet (d : List (String × PyVal)) (key : String) : PyVal :=
  (dget d key).getD PyVal.none

/-- Model of `d.get(key, dflt)`. -/
def pyGetD (d : List (String × PyVal)) (key : String) (dflt : PyVal) : PyVal :=
  (dget d key).getD dflt

/-- Python `a or b`: `a` when truthy, else `b`. -/
def pyOr (a b : PyVal) : PyVal :=
  if truthy a then a else b

mutual

/-- Model of Python `repr` on the value domain (string escapes inside
reprs are not modelled; float repr is modelled by the rational's
representation — no claim depends on those digits). -/
def pyRepr : PyVal → String
  | PyVal.str s => "\x27" ++ s ++ "\x27"
  | PyVal.int n => toString n
  | PyVal.float q => toString q
  | PyVal.bool b => if b then "True" else "False"
  | PyVal.none => "None"
  | PyVal.list xs => "[" ++ String.intercalate ", " (pyReprList xs) ++ "]"
  | PyVal.dict d => "\x7b" ++ String.intercalate ", " (pyReprKVs d) ++ "\x7d"

/-- The `repr` of each element of a list. -/
def pyReprList : List PyVal → List String
  | [] => []
  | x :: xs => pyRepr x :: pyReprList xs

/-- The `repr` of each `key: value` pair of a dict. -/
def pyReprKVs : List (String × PyVal) → List String
  | [] => []
  | (k, v) :: rest => ("\x27" ++ k ++ "\x27: " ++ pyRepr v) :: pyReprKVs rest

end

/-- Model of Python `str(v)`: the text itself for strings, `repr`
otherwise. -/
def pyStr : PyVal → String
  | PyVal.str s => s
  | v => pyRepr v

/-- Embedding of `_normalize_result` (app.py, lines 254-273), returning the entries
of the produced dict in insertion order. -/
def normalize_result : PyVal → List (String × PyVal)
  | PyVal.str s => [("answer", PyVal.str s)]
  | PyVal.dict d =>
      let a := pyOr (pyGet d "answer") (pyOr (pyGet d "result") (PyVal.str ""))
      let srcPart :=
        if hasKey d "sources" && isList (pyGet d "sources") then
          [("sources", pyGet d "sources")]
        else []
      let sqlPart := if hasKey d "sql" then [("sql", pyGet d "sql")] else []
      let rowsPart := if hasKey d "rows" then [("rows", pyGet d "rows")] else []
      ("answer", a) :: (srcPart ++ sqlPart ++ rowsPart)
  | v => [("answer", PyVal.str (pyStr v))]

/-- The three decimal digits of `n` (zero padded), as used by the
fraction part of a `%.3f` format. -/
def pad3 (n : Nat) : String :=
  String.mk [Nat.digitChar (n / 100 % 10), Nat.digitChar (n / 10 % 10), Nat.digitChar (n % 10)]

/-- Core of the 3-decimal format on a non-negative scaled integer
`m` = value times 1000: integer part, a dot, three fraction digits. -/
def fmt3core (m : Int) : String :=
  toString (m / 1000) ++ "." ++ pad3 (m % 1000).toNat

/-- Model of Python `f"{x:.3f}"` on the rational model of the number:
round at the third decimal — `⌊1000q + 1/2⌋`, computed on the
numerator and denominator with floor division — and print exactly
three fraction digits (the tie-breaking of binary floats is below the
resolution of this model). -/
def fmt3 (q : Rat) : String :=
  let m : Int := Int.fdiv (2 * 1000 * q.num + q.den) (2 * q.den)
  if m < 0 then "-" ++ fmt3core (-m) else fmt3core m

/-- The inline score label of `_render_rich_answer`:
`f" **(score: {score:.3f})**"` when `isinstance(score, (int, float))`,
the empty string otherwise. -/
def scoreMeta : PyVal → String
  | PyVal.int n => " **(score: " ++ fmt3 (n : Rat) ++ ")**"
  | PyVal.float q => " **(score: " ++ fmt3 q ++ ")**"
  | PyVal.bool b => " **(score: " ++ fmt3 (if b then (1 : Rat) else 0) ++ ")**"
  | _ => ""

/-- One rendered entry of the "Sources & citations" expander: the
local values computed by the loop body of `_render_rich_answer` and
the two conditional extra lines. -/
structure SourceItem where
  index : Nat
  title : PyVal
  meta : String
  urlLine : Option PyVal
  snippetLine : Option PyVal

/-- Loop body of the sources loop for item number `i` (1-based).
A non-dict source has no `.get` method: the Python code would raise,
modelled by `Option.none`. -/
def render_source (i : Nat) (src : PyVal) : Option SourceItem :=
  match src with
  | PyVal.dict d =>
      let title := pyOr (pyGet d "title") (PyVal.str ("Source " ++ toString i))
      let url := pyOr (pyGet d "url") (PyVal.str "")
      let score := pyGet d "score"
      let snippet := pyOr (pyGet d "snippet") (pyOr (pyGet d "text") (PyVal.str ""))
      some ⟨i, title, scoreMeta score,
            if truthy url then some url else Option.none,
            if truthy snippet then some snippet else Option.none⟩
  | _ => Option.none

/-- The loop `for i, src in enumerate(payload["sources"], start=1)` with the
loop body above; fails (raises) as soon as one item fails. -/
def render_sources : Nat → List PyVal → Option (List SourceItem)
  | _, [] => some []
  | i, src :: rest => do
      let item ← render_source i src
      let items ← render_sources (i + 1) rest
      pure (item :: items)

/-- Model of `pandas.DataFrame(rows)` over the value domain: a table
(list of records) for a list whose members are all dicts, failure
otherwise.  Only the success/failure split matters to the claims: the
renderer catches any failure. -/
def dataFrameModel : PyVal → Option (List (List (String × PyVal)))
  | PyVal.list xs => xs.mapM (fun x => match x with
      | PyVal.dict d => some d
      | _ => Option.none)
  | _ => Option.none

/-- One display section emitted by `_render_rich_answer`, in emission
order. -/
inductive DisplaySection where
  | answer (v : PyVal)
  | sqlDebug (code : String)
  | rowsTable (t : List (List (String × PyVal)))
  | rowsRaw (v : PyVal)
  | sources (items : List SourceItem)

/-- The "Structured results" expander body: try the tabular rendering,
fall back to `st.write(payload["rows"])` on failure — never raises. -/
def rows_section (v : PyVal) : DisplaySection :=
  match dataFrameModel v with
  | some t => DisplaySection.rowsTable t
  | Option.none => DisplaySection.rowsRaw v

/-- Embedding of `_render_rich_answer` (app.py, lines 275-308) as the ordered list
of sections it emits.  `Option.none` models an escaped exception
(non-dict payload, or a sources value that is not a list of dicts). -/
def render_rich_answer (payload : PyVal) : Option (List DisplaySection) :=
  match payload with
  | PyVal.dict p =>
      let ansSec := [DisplaySection.answer (pyGetD p "answer" (PyVal.str ""))]
      let sqlSec :=
        if hasKey p "sql" && truthy (pyGet p "sql") then
          [DisplaySection.sqlDebug (pyStr (pyGet p "sql"))]
        else []
      let rowsSec :=
        if hasKey p "rows" && truthy (pyGet p "rows") then
          [rows_section (pyGet p "rows")]
        else []
      if hasKey p "sources" && truthy (pyGet p "sources") then
        match pyGet p "sources" with
        | PyVal.list xs =>
            (render_sources 1 xs).map
              (fun items => ansSec ++ sqlSec ++ rowsSec ++ [DisplaySection.sources items])
        | _ => Option.none
      else some (ansSec ++ sqlSec ++ rowsSec)
  | _ => Option.none

/-- The fixed fallback answer of `_process_query`. -/
def fallback_message : String :=
  "Sorry, something went wrong while processing your query."

/-- One entry of `st.session_state.messages`:
a dict `\x7b"role": ..., "content": ...\x7d`. -/
structure Turn where
  role : String
  content : PyVal

/-- The external query collaborator, modelled as the stream of
outcomes successive invocations of `query_hybrid_rag` would return:
each call consumes the head. -/
structure QueryEnv where
  outcomes : List (Except String PyVal)

/-- Embedding of `_process_query` (app.py, lines 310-332): append the user turn,
invoke the external query once, on success normalize and render (a
failure anywhere in the `try` block selects the fallback message),
then append the assistant turn.  Returns the new message list and the
remaining outcome stream. -/
def process_query (env : QueryEnv) (msgs : List Turn) (q : String) :
    List Turn × QueryEnv :=
  let msgs1 := msgs ++ [⟨"user", PyVal.str q⟩]
  let res := env.outcomes.headD (Except.error "")
  let ans : PyVal :=
    match res with
    | Except.error _ => PyVal.str fallback_message
    | Except.ok raw =>
        let payload := normalize_result raw
        match render_rich_answer (PyVal.dict payload) with
        | Option.none => PyVal.str fallback_message
        | some _ => pyGetD payload "answer" (PyVal.str "")
  (msgs1 ++ [⟨"assistant", ans⟩], ⟨env.outcomes.tail⟩)

/-- Modelled from the spec: the memoization state of
`st.cache_resource` around `_init_workflow_sync` is provided by the
external Streamlit library (not in this repository); per spec section
4.3 it holds at most one handle, counts one initializer invocation per
cache miss, and caches nothing on failure.  `initCalls` counts the
invocations of the external initializer. -/
structure HandleCache (H : Type) where
  cached : Option H
  initCalls : Nat

/-- The operation `PipelineHandleCache.get()`: return the cached handle if present,
otherwise invoke the external initializer (its outcome indexed by the
invocation count) and cache only a success. -/
def cacheGet {H : Type} (init : Nat → Except String H) (s : HandleCache H) :
    Except String H × HandleCache H :=
  match s.cached with
  | some h => (Except.ok h, s)
  | Option.none =>
      match init s.initCalls with
      | Except.ok h => (Except.ok h, ⟨some h, s.initCalls + 1⟩)
      | Except.error e => (Except.error e, ⟨Option.none, s.initCalls + 1⟩)

/-- The operation `_init_workflow_sync.clear()` (the Reinitialize handler): drop the
stored handle. -/
def cacheInvalidate {H : Type} (s : HandleCache H) : HandleCache H :=
  ⟨Option.none, s.initCalls⟩

/-- Embedding of `st.session_state.messages.append(...)`. -/
def store_append (msgs : List Turn) (t : Turn) : List Turn :=
  msgs ++ [t]

/-- The Clear Chat handler: `st.session_state.messages = []`. -/
def store_clear (_msgs : List Turn) : List Turn :=
  []

/-- The history replay loop iterates the stored messages in order. -/
def store_replay (msgs : List Turn) : List Turn :=
  msgs

/-- Model of Python `sep.join(parts)`. -/
def pyJoin (sep : String) : List String → String
  | [] => ""
  | [x] => x
  | x :: xs => x ++ sep ++ pyJoin sep xs

/-- The transcript export (app.py, lines 404-417): one block per turn,
`"**You:**"` or `"**Assistant:**"` then a blank line then the content
and a trailing newline, blocks joined by `"\n---\n"`. -/
def export_transcript (msgs : List Turn) : String :=
  pyJoin "\n---\n"
    (msgs.map fun m =>
      (if m.role = "user" then "**You:**" else "**Assistant:**")
        ++ "\n\n" ++ pyStr m.content ++ "\n")

lemma dget_append (l1 l2 : List (String × PyVal)) (key : String) :
    dget (l1 ++ l2) key =
      (match dget l1 key with
        | some v => some v
        | Option.none => dget l2 key) := by
  induction l1 with
  | nil => rfl
  | cons p rest ih =>
      obtain ⟨k1, v1⟩ := p
      by_cases hk : k1 = key
      · simp [dget, hk]
      · simp [dget, hk, ih]

lemma dget_cond_single (c : Bool) (k : String) (v : PyVal) (key : String)
    (h : k ≠ key) :
    dget (if c then [(k, v)] else []) key = Option.none := by
  cases c <;> simp [dget, h]

lemma dget_of_hasKey (d : List (String × PyVal)) (k : String)
    (h : hasKey d k = true) : dget d k = some (pyGet d k) := by
  unfold hasKey at h
  cases hd : dget d k with
  | none => rw [hd] at h; simp at h
  | some v => simp [pyGet, hd]

/-- The dict built by `_normalize_result` on a dict input, spelled
out. -/
lemma normalize_result_dict (d : List (String × PyVal)) :
    normalize_result (PyVal.dict d) =
      ("answer", pyOr (pyGet d "answer") (pyOr (pyGet d "result") (PyVal.str "")))
        :: ((if hasKey d "sources" && isList (pyGet d "sources") then
              [("sources", pyGet d "sources")] else [])
          ++ (if hasKey d "sql" then [("sql", pyGet d "sql")] else [])
          ++ (if hasKey d "rows" then [("rows", pyGet d "rows")] else [])) := rfl

/-- C6: for every structured record, `sources` is copied into the
output exactly when it is present and is a list (type-checked, not by
truthiness), any non-list `sources` being dropped; `sql` and `rows`
are copied through verbatim whenever their key is present, regardless
of shape. -/
theorem normalize_passthrough (d : List (String × PyVal)) :
    dget (normalize_result (PyVal.dict d)) "sql" = dget d "sql" ∧
    dget (normalize_result (PyVal.dict d)) "rows" = dget d "rows" ∧
    dget (normalize_result (PyVal.dict d)) "sources" =
      (match dget d "sources" with
        | some (PyVal.list xs) => some (PyVal.list xs)
        | _ => Option.none) := by
  rw [normalize_result_dict]
  refine ⟨?_, ?_, ?_⟩
  · show dget (_ :: _) "sql" = _
    rw [show ∀ a L, dget (("answer", a) :: L) "sql" = dget L "sql" from
      fun a L => by simp [dget]]
    rw [dget_append, dget_append]
    rw [dget_cond_single _ _ _ _ (by decide)]
    cases hq : dget d "sql" with
    | none =>
        have hk : hasKey d "sql" = false := by simp [hasKey, hq]
        simp [hk, dget_cond_single _ _ _ _ (show "rows" ≠ "sql" by decide), dget]
    | some v =>
        have hk : hasKey d "sql" = true := by simp [hasKey, hq]
        have hv : pyGet d "sql" = v := by simp [pyGet, hq]
        simp [hk, hv, dget]
  · show dget (_ :: _) "rows" = _
    rw [show ∀ a L, dget (("answer", a) :: L) "rows" = dget L "rows" from
      fun a L => by simp [dget]]
    rw [dget_append, dget_append]
    rw [dget_cond_single _ _ _ _ (by decide)]
    cases hq : dget d "rows" with
    | none =>
        have hk : hasKey d "rows" = false := by simp [hasKey, hq]
        by_cases hs : hasKey d "sql" = true
        · simp [hk, hs, dget]
        · simp [hk, hs, dget]
    | some v =>
        have hk : hasKey d "rows" = true := by simp [hasKey, hq]
        have hv : pyGet d "rows" = v := by simp [pyGet, hq]
        by_cases hs : hasKey d "sql" = true
        · simp [hk, hs, hv, dget]
        · simp [hk, hs, hv, dget]
  · show dget (_ :: _) "sources" = _
    rw [show ∀ a L, dget (("answer", a) :: L) "sources" = dget L "sources" from
      fun a L => by simp [dget]]
    rw [dget_append, dget_append]
    cases hq : dget d "sources" with
    | none =>
        have hk : hasKey d "sources" = false := by simp [hasKey, hq]
        simp [hk, dget_cond_single _ _ _ _ (show "sql" ≠ "sources" by decide),
          dget_cond_single _ _ _ _ (show "rows" ≠ "sources" by decide), dget]
    | some v =>
        have hk : hasKey d "sources" = true := by simp [hasKey, hq]
        have hv : pyGet d "sources" = v := by simp [pyGet, hq]
        cases v with
        | list xs =>
            simp [hk, hv, isList, dget]
        | _ =>
            simp [hk, hv, isList,
              dget_cond_single _ _ _ _ (show "sql" ≠ "sources" by decide),
              dget_cond_single _ _ _ _ (show "rows" ≠ "sources" by decide), dget]

/-- C2 (amended): plain text maps to a one-field payload; for a
structured record the normalized answer is the record's `answer` value
when that value is truthy, otherwise the `result` value when truthy,
otherwise the empty string — the fallback also fires when the
preceding field is present but falsy (Python `or`-chain). -/
theorem normalize_answer_selection :
    (∀ s, normalize_result (PyVal.str s) = [("answer", PyVal.str s)]) ∧
    (∀ d, (truthy (pyGet d "answer") = true →
            dget (normalize_result (PyVal.dict d)) "answer" = some (pyGet d "answer")) ∧
          (truthy (pyGet d "answer") = false → truthy (pyGet d "result") = true →
            dget (normalize_result (PyVal.dict d)) "answer" = some (pyGet d "result")) ∧
          (truthy (pyGet d "answer") = false → truthy (pyGet d "result") = false →
            dget (normalize_result (PyVal.dict d)) "answer" = some (PyVal.str ""))) := by
  refine ⟨fun s => rfl, fun d => ?_⟩
  have hout : dget (normalize_result (PyVal.dict d)) "answer"
      = some (pyOr (pyGet d "answer") (pyOr (pyGet d "result") (PyVal.str ""))) := by
    rw [normalize_result_dict]; simp [dget]
  refine ⟨fun h1 => ?_, fun h1 h2 => ?_, fun h1 h2 => ?_⟩
  · rw [hout]; simp [pyOr, h1]
  · rw [hout]; simp [pyOr, h1, h2]
  · rw [hout]; simp [pyOr, h1, h2]

/-- C2 witness: on `\x7b"answer": "", "result": "x"\x7d` the `answer`
field is falsy, so the normalizer returns the `result` value. -/
theorem normalize_answer_selection_witness :
    truthy (pyGet [("answer", PyVal.str ""), ("result", PyVal.str "x")] "answer") = false ∧
    truthy (pyGet [("answer", PyVal.str ""), ("result", PyVal.str "x")] "result") = true ∧
    dget (normalize_result (PyVal.dict [("answer", PyVal.str ""), ("result", PyVal.str "x")]))
        "answer"
      = some (pyGet [("answer", PyVal.str ""), ("result", PyVal.str "x")] "result") :=
  ⟨rfl, rfl,
    (normalize_answer_selection.2 [("answer", PyVal.str ""), ("result", PyVal.str "x")]).2.1
      rfl rfl⟩

/-- C2 counterexample: the record has an `answer` field (value `""`),
yet the normalized answer is `"x"`, taken from `result` — the fallback
is not restricted to an absent `answer` field. -/
theorem normalize_truthy_fallback_cex :
    dget [("answer", PyVal.str ""), ("result", PyVal.str "x")] "answer"
      = some (PyVal.str "") ∧
    dget (normalize_result (PyVal.dict [("answer", PyVal.str ""), ("result", PyVal.str "x")]))
        "answer"
      = some (PyVal.str "x") ∧
    PyVal.str "x" ≠ PyVal.str "" := by
  refine ⟨rfl, rfl, fun h => ?_⟩
  rw [PyVal.str.injEq] at h
  exact absurd h (by decide)

/-- C3 (amended): the normalizer is a total function whose output
always has a defined `answer` field; plain text and non-record,
non-text inputs yield a string answer (the input text, respectively
its textual representation); a record's `answer`/`result` value is
passed through as-is and need not be a string. -/
theorem normalize_answer_defined :
    (∀ v, (dget (normalize_result v) "answer").isSome = true) ∧
    (∀ s, normalize_result (PyVal.str s) = [("answer", PyVal.str s)]) ∧
    (∀ v, isStr v = false → isDict v = false →
      normalize_result v = [("answer", PyVal.str (pyStr v))]) := by
  refine ⟨fun v => ?_, fun s => rfl, fun v h1 h2 => ?_⟩
  · cases v with
    | dict d => rw [normalize_result_dict]; simp [dget]
    | _ => simp [normalize_result, dget]
  · cases v <;> first | rfl | simp_all [isStr, isDict]

/-- C3 witness: a bare integer is neither text nor a record and is
wrapped as its textual representation. -/
theorem normalize_answer_defined_witness :
    isStr (PyVal.int 7) = false ∧ isDict (PyVal.int 7) = false ∧
    pyStr (PyVal.int 7) = "7" ∧
    normalize_result (PyVal.int 7) = [("answer", PyVal.str (pyStr (PyVal.int 7)))] :=
  ⟨rfl, rfl, by decide, normalize_answer_defined.2.2 (PyVal.int 7) rfl rfl⟩

/-- C3 counterexample: `\x7b"answer": 42\x7d` normalizes to an
`answer` value that is the integer 42, not a string — the claim that
the answer field is always a string fails on the code. -/
theorem normalize_answer_nonstring_cex :
    dget (normalize_result (PyVal.dict [("answer", PyVal.int 42)])) "answer"
      = some (PyVal.int 42) ∧
    ∀ s, PyVal.int 42 ≠ PyVal.str s :=
  ⟨rfl, fun _ h => PyVal.noConfusion h⟩

/-- C1: when the external query raises, `_process_query` swallows the
failure (the result is still a plain message list, no exception
escapes), consumes exactly one outcome of the external operation (no
retry), and leaves the store ending with the user turn followed by the
fixed fallback assistant turn. -/
theorem process_query_error_fallback (env : QueryEnv) (msgs : List Turn)
    (q e : String) (h : env.outcomes.head? = some (Except.error e)) :
    (process_query env msgs q).1 =
      msgs ++ [⟨"user", PyVal.str q⟩,
               ⟨"assistant", PyVal.str fallback_message⟩] ∧
    (process_query env msgs q).2.outcomes = env.outcomes.tail := by
  refine ⟨?_, rfl⟩
  obtain ⟨rest, hrest⟩ : ∃ rest, env.outcomes = Except.error e :: rest := by
    cases henv : env.outcomes with
    | nil => rw [henv] at h; simp at h
    | cons a rest =>
        rw [henv] at h
        simp at h
        exact ⟨rest, by rw [h]⟩
  simp [process_query, hrest]

/-- C1 witness: a concrete failing query on an empty store. -/
theorem process_query_error_fallback_witness :
    (QueryEnv.mk [Except.error "net"]).outcomes.head?
      = some (Except.error "net") ∧
    (process_query ⟨[Except.error "net"]⟩ [] "X").1 =
      [] ++ [⟨"user", PyVal.str "X"⟩,
             ⟨"assistant", PyVal.str fallback_message⟩] ∧
    (process_query ⟨[Except.error "net"]⟩ [] "X").2.outcomes =
      (QueryEnv.mk [Except.error "net"]).outcomes.tail :=
  ⟨rfl,
    (process_query_error_fallback ⟨[Except.error "net"]⟩ [] "X" "net" rfl).1,
    (process_query_error_fallback ⟨[Except.error "net"]⟩ [] "X" "net" rfl).2⟩

/-- C10 (amended): every `_process_query` call appends exactly two
turns — the user turn with the query text, then one assistant turn
whose content is either the fixed fallback message or the normalized
payload's `answer` value (which need not be a string); the structured
fields are never persisted. -/
theorem process_query_two_turns (env : QueryEnv) (msgs : List Turn) (q : String) :
    ∃ a, (process_query env msgs q).1 =
        msgs ++ [⟨"user", PyVal.str q⟩, ⟨"assistant", a⟩] ∧
      (a = PyVal.str fallback_message ∨
        ∃ raw, env.outcomes.head? = some (Except.ok raw) ∧
          a = pyGetD (normalize_result raw) "answer" (PyVal.str "")) := by
  cases henv : env.outcomes with
  | nil =>
      exact ⟨PyVal.str fallback_message, by simp [process_query, henv], Or.inl rfl⟩
  | cons r rest =>
    cases r with
    | error e =>
        exact ⟨PyVal.str fallback_message, by simp [process_query, henv], Or.inl rfl⟩
    | ok raw =>
      cases hr : render_rich_answer (PyVal.dict (normalize_result raw)) with
      | none =>
          exact ⟨PyVal.str fallback_message,
            by simp [process_query, henv, hr], Or.inl rfl⟩
      | some l =>
          exact ⟨pyGetD (normalize_result raw) "answer" (PyVal.str ""),
            by simp [process_query, henv, hr],
            Or.inr ⟨raw, by simp [henv], rfl⟩⟩

/-- C10 counterexample: a successful query returning
`\x7b"answer": 42\x7d` persists the integer 42 as the assistant turn's
content, which is not a plain string. -/
theorem process_query_nonstring_cex :
    (process_query ⟨[Except.ok (PyVal.dict [("answer", PyVal.int 42)])]⟩ [] "q").1 =
      [⟨"user", PyVal.str "q"⟩, ⟨"assistant", PyVal.int 42⟩] ∧
    ∀ s, PyVal.int 42 ≠ PyVal.str s :=
  ⟨rfl, fun _ h => PyVal.noConfusion h⟩

/-- C8: the clear-then-append scenario replays to exactly the single
turn appended after the clear; and an append never edits or removes a
stored turn (the previous history is kept unchanged, with the new turn
after it), while replay reads the store back as is. -/
theorem store_clear_scenario :
    store_replay (store_append (store_clear (store_append (store_append []
        ⟨"user", PyVal.str "hi"⟩) ⟨"assistant", PyVal.str "hello"⟩))
        ⟨"user", PyVal.str "again"⟩) = [⟨"user", PyVal.str "again"⟩] ∧
    (∀ msgs t, (store_append msgs t).take msgs.length = msgs ∧
      store_replay msgs = msgs) := by
  refine ⟨rfl, fun msgs t => ⟨?_, rfl⟩⟩
  simp [store_append]

/-- C9: the exported transcript is a pure function of the stored
turns; each turn is a block of its bold role label, a blank line and
its content, and consecutive blocks are joined by a line containing
`---`. -/
theorem export_transcript_format :
    export_transcript [] = "" ∧
    (∀ r c, export_transcript [⟨r, c⟩] =
      (if r = "user" then "**You:**" else "**Assistant:**")
        ++ "\n\n" ++ pyStr c ++ "\n") ∧
    (∀ t ts, ts ≠ [] → export_transcript (t :: ts) =
      export_transcript [t] ++ "\n---\n" ++ export_transcript ts) := by
  refine ⟨rfl, fun r c => rfl, fun t ts hne => ?_⟩
  cases ts with
  | nil => exact absurd rfl hne
  | cons u us => rfl

/-- C9 witness: a two-turn transcript splits as the theorem states. -/
theorem export_transcript_format_witness :
    export_transcript [⟨"user", PyVal.str "hi"⟩, ⟨"assistant", PyVal.str "yo"⟩] =
      export_transcript [⟨"user", PyVal.str "hi"⟩] ++ "\n---\n" ++
        export_transcript [⟨"assistant", PyVal.str "yo"⟩] :=
  export_transcript_format.2.2 ⟨"user", PyVal.str "hi"⟩
    [⟨"assistant", PyVal.str "yo"⟩] (by simp)

/-- C7: from a state with no cached handle, a successful `get()`
returns the freshly initialized handle with exactly one initializer
invocation, and a second `get()` returns the identical handle without
touching the initializer; after `invalidate()` the next `get()`
performs exactly one fresh initialization; a failing initialization
surfaces the error to the caller, caches nothing, and the next `get()`
retries the initializer from scratch. -/
theorem cache_get_memoization {H : Type} (init : Nat → Except String H)
    (s0 : HandleCache H) (h0 : s0.cached = Option.none) :
    (∀ h, init s0.initCalls = Except.ok h →
      (cacheGet init s0).1 = Except.ok h ∧
      (cacheGet init s0).2.initCalls = s0.initCalls + 1 ∧
      cacheGet init (cacheGet init s0).2 = (Except.ok h, (cacheGet init s0).2)) ∧
    (∀ s : HandleCache H, (cacheInvalidate s).cached = Option.none ∧
      ∀ h, init s.initCalls = Except.ok h →
        cacheGet init (cacheInvalidate s) = (Except.ok h, ⟨some h, s.initCalls + 1⟩)) ∧
    (∀ e, init s0.initCalls = Except.error e →
      (cacheGet init s0).1 = Except.error e ∧
      (cacheGet init s0).2.cached = Option.none ∧
      ∀ h2, init (s0.initCalls + 1) = Except.ok h2 →
        (cacheGet init (cacheGet init s0).2).1 = Except.ok h2) := by
  refine ⟨fun h hi => ?_, fun s => ⟨rfl, fun h hi => ?_⟩, fun e hi => ?_⟩
  · refine ⟨?_, ?_, ?_⟩ <;> simp [cacheGet, h0, hi]
  · simp [cacheGet, cacheInvalidate, hi]
  · refine ⟨?_, ?_, fun h2 hi2 => ?_⟩
    · simp [cacheGet, h0, hi]
    · simp [cacheGet, h0, hi]
    · simp [cacheGet, h0, hi, hi2]

/-- C7 witness: an initializer that fails on its first invocation and
succeeds on the second, exercised through the theorem. -/
theorem cache_get_memoization_witness :
    ((fun k => if k = 0 then Except.error "boom" else Except.ok (7 : Nat)) 1
        = Except.ok 7 ∧
      (cacheGet (fun k => if k = 0 then Except.error "boom" else Except.ok (7 : Nat))
          (⟨Option.none, 1⟩ : HandleCache Nat)).1 = Except.ok 7) ∧
    ((fun k => if k = 0 then Except.error "boom" else Except.ok (7 : Nat)) 0
        = Except.error "boom" ∧
      (cacheGet (fun k => if k = 0 then Except.error "boom" else Except.ok (7 : Nat))
          (⟨Option.none, 0⟩ : HandleCache Nat)).1 = Except.error "boom" ∧
      (cacheGet (fun k => if k = 0 then Except.error "boom" else Except.ok (7 : Nat))
          (cacheGet (fun k => if k = 0 then Except.error "boom" else Except.ok (7 : Nat))
            (⟨Option.none, 0⟩ : HandleCache Nat)).2).1 = Except.ok 7) :=
  ⟨⟨rfl,
    ((cache_get_memoization
        (fun k => if k = 0 then Except.error "boom" else Except.ok (7 : Nat))
        (⟨Option.none, 1⟩ : HandleCache Nat) rfl).1 7 rfl).1⟩,
   ⟨rfl,
    ((cache_get_memoization
        (fun k => if k = 0 then Except.error "boom" else Except.ok (7 : Nat))
        (⟨Option.none, 0⟩ : HandleCache Nat) rfl).2.2 "boom" rfl).1,
    ((cache_get_memoization
        (fun k => if k = 0 then Except.error "boom" else Except.ok (7 : Nat))
        (⟨Option.none, 0⟩ : HandleCache Nat) rfl).2.2 "boom" rfl).2.2 7 rfl⟩⟩

lemma pad3_length (n : Nat) : (pad3 n).length = 3 := rfl

lemma fmt3_decomp (q : Rat) :
    ∃ w f, fmt3 q = w ++ "." ++ f ∧ f.length = 3 := by
  unfold fmt3
  by_cases h : Int.fdiv (2 * 1000 * q.num + q.den) (2 * q.den) < (0 : Int)
  · refine ⟨"-" ++ toString (-Int.fdiv (2 * 1000 * q.num + q.den) (2 * q.den) / 1000),
      pad3 (-Int.fdiv (2 * 1000 * q.num + q.den) (2 * q.den) % 1000).toNat, ?_,
      pad3_length _⟩
    simp only [h, if_pos, fmt3core, String.append_assoc]
  · refine ⟨toString (Int.fdiv (2 * 1000 * q.num + q.den) (2 * q.den) / 1000),
      pad3 (Int.fdiv (2 * 1000 * q.num + q.den) (2 * q.den) % 1000).toNat, ?_,
      pad3_length _⟩
    simp only [h, if_neg, fmt3core, String.append_assoc]
    simp [fmt3core]

lemma scoreMeta_numeric (v : PyVal) (h : isNumeric v = true) :
    ∃ w f, scoreMeta v = " **(score: " ++ (w ++ "." ++ f) ++ ")**" ∧
      f.length = 3 := by
  cases v with
  | int n =>
      obtain ⟨w, f, hwf, hf⟩ := fmt3_decomp (n : Rat)
      exact ⟨w, f, by rw [scoreMeta, hwf], hf⟩
  | float q =>
      obtain ⟨w, f, hwf, hf⟩ := fmt3_decomp q
      exact ⟨w, f, by rw [scoreMeta, hwf], hf⟩
  | bool b =>
      obtain ⟨w, f, hwf, hf⟩ := fmt3_decomp (if b then (1 : Rat) else 0)
      exact ⟨w, f, by rw [scoreMeta, hwf], hf⟩
  | _ => simp [isNumeric] at h

lemma scoreMeta_not_numeric (v : PyVal) (h : isNumeric v = false) :
    scoreMeta v = "" := by
  cases v <;> simp_all [isNumeric, scoreMeta]

/-- The item the loop body produces for the `i`-th source dict. -/
def source_item_model (i : Nat) (d : List (String × PyVal)) : SourceItem :=
  ⟨i,
    pyOr (pyGet d "title") (PyVal.str ("Source " ++ toString i)),
    scoreMeta (pyGet d "score"),
    if truthy (pyOr (pyGet d "url") (PyVal.str "")) then
      some (pyOr (pyGet d "url") (PyVal.str "")) else Option.none,
    if truthy (pyOr (pyGet d "snippet") (pyOr (pyGet d "text") (PyVal.str ""))) then
      some (pyOr (pyGet d "snippet") (pyOr (pyGet d "text") (PyVal.str "")))
    else Option.none⟩

lemma render_source_dict (i : Nat) (d : List (String × PyVal)) :
    render_source i (PyVal.dict d) = some (source_item_model i d) := rfl

lemma render_sources_all_dicts (i : Nat) (xs : List PyVal)
    (h : ∀ x ∈ xs, isDict x = true) :
    ∃ items, render_sources i xs = some items ∧ items.length = xs.length ∧
      ∀ j d, xs.get? j = some (PyVal.dict d) →
        items.get? j = some (source_item_model (i + j) d) := by
  induction xs generalizing i with
  | nil => exact ⟨[], rfl, rfl, fun j d hj => by simp at hj⟩
  | cons x rest ih =>
      have hx : isDict x = true := h x (List.mem_cons_self _ _)
      obtain ⟨d0, rfl⟩ : ∃ d0, x = PyVal.dict d0 := by
        cases x <;> simp_all [isDict]
      obtain ⟨items, h1, h2, h3⟩ :=
        ih (i + 1) (fun y hy => h y (List.mem_cons_of_mem _ hy))
      refine ⟨source_item_model i d0 :: items, ?_, by simp [h2], ?_⟩
      · simp [render_sources, render_source_dict, h1]
      · intro j d hj
        cases j with
        | zero =>
            simp only [List.get?] at hj
            obtain ⟨rfl⟩ : d0 = d := by
              injection hj with hj1
              injection hj1
            simp [source_item_model]
        | succ j' =>
            have hrec := h3 j' d (by simpa using hj)
            have hidx : i + 1 + j' = i + (j' + 1) := by omega
            rw [hidx] at hrec
            simpa using hrec

/-- C5: rendering a non-empty list of source records enumerates them
1..N in original order; an absent title falls back to
`"Source \x7bindex\x7d"`; a numeric score (integer or floating —
Python treats `bool` as an integer) yields an inline label whose
fraction part has exactly 3 digits, while a non-numeric or absent
score yields no label; the URL line appears only when `url` is
present, and the snippet line only when `snippet` or `text` is
present. -/
theorem render_sources_spec (xs : List PyVal)
    (_hne : xs ≠ []) (hd : ∀ x ∈ xs, isDict x = true) :
    ∃ items, render_sources 1 xs = some items ∧ items.length = xs.length ∧
      ∀ j d, xs.get? j = some (PyVal.dict d) →
        ∃ it, items.get? j = some it ∧
          it.index = j + 1 ∧
          (dget d "title" = Option.none →
            it.title = PyVal.str ("Source " ++ toString (j + 1))) ∧
          (isNumeric (pyGet d "score") = true →
            ∃ w f, it.meta = " **(score: " ++ (w ++ "." ++ f) ++ ")**" ∧
              f.length = 3) ∧
          (isNumeric (pyGet d "score") = false → it.meta = "") ∧
          (it.urlLine.isSome = true → hasKey d "url" = true) ∧
          (it.snippetLine.isSome = true →
            hasKey d "snippet" = true ∨ hasKey d "text" = true) := by
  obtain ⟨items, h1, h2, h3⟩ := render_sources_all_dicts 1 xs hd
  refine ⟨items, h1, h2, fun j d hj => ?_⟩
  have hit := h3 j d hj
  rw [Nat.add_comm 1 j] at hit
  refine ⟨source_item_model (j + 1) d, hit, rfl, ?_, ?_, ?_, ?_, ?_⟩
  · intro ht
    simp [source_item_model, pyGet, ht, pyOr, truthy]
  · intro hn
    simpa [source_item_model] using scoreMeta_numeric _ hn
  · intro hn
    simp [source_item_model, scoreMeta_not_numeric _ hn]
  · intro hu
    by_contra hk
    have hud : dget d "url" = Option.none := by
      cases hdu : dget d "url" with
      | none => rfl
      | some v => simp [hasKey, hdu] at hk
    simp [source_item_model, pyGet, hud, pyOr, truthy] at hu
  · intro hu
    by_contra hk
    push_neg at hk
    obtain ⟨hk1, hk2⟩ := hk
    have hs1 : dget d "snippet" = Option.none := by
      cases hdu : dget d "snippet" with
      | none => rfl
      | some v => simp [hasKey, hdu] at hk1
    have hs2 : dget d "text" = Option.none := by
      cases hdu : dget d "text" with
      | none => rfl
      | some v => simp [hasKey, hdu] at hk2
    simp [source_item_model, pyGet, hs1, hs2, pyOr, truthy] at hu

/-- The spec's worked example of a source list: a title-only record
and a score-only record with score 0.8321. -/
def sources_example : List PyVal :=
  [PyVal.dict [("title", PyVal.str "A")],
   PyVal.dict [("score", PyVal.float (mkRat 8321 10000))]]

/-- C5 witness: on the example, item 1 is titled `A` with no score
label and item 2 falls back to `Source 2` with label `0.832`. -/
theorem render_sources_spec_witness :
    (sources_example ≠ [] ∧ ∀ x ∈ sources_example, isDict x = true) ∧
    render_sources 1 sources_example =
      some [⟨1, PyVal.str "A", "", Option.none, Option.none⟩,
            ⟨2, PyVal.str "Source 2", " **(score: 0.832)**",
              Option.none, Option.none⟩] ∧
    (∃ items, render_sources 1 sources_example = some items ∧
      items.length = sources_example.length) := by
  refine ⟨⟨by simp [sources_example], by decide⟩, by rfl, ?_⟩
  obtain ⟨items, h1, h2, _⟩ :=
    render_sources_spec sources_example (by simp [sources_example]) (by decide)
  exact ⟨items, h1, h2⟩

/-- C4: over payloads shaped per the data model (text `sql`, list
`rows`, list-of-records `sources`), the renderer never fails (the
tabular fallback is internal to `rows_section`) and emits, in order:
the `answer` value verbatim (empty string included), then a SQL debug
section exactly when `sql` is present and non-empty, then a structured
results section exactly when `rows` is present and non-empty, then a
sources section exactly when `sources` is present and non-empty. -/
theorem render_section_order (p : List (String × PyVal)) (a : PyVal)
    (ha : dget p "answer" = some a)
    (hsql : ∀ v, dget p "sql" = some v → ∃ s, v = PyVal.str s)
    (hrows : ∀ v, dget p "rows" = some v → ∃ rs, v = PyVal.list rs)
    (hsrc : ∀ v, dget p "sources" = some v →
      ∃ xs, v = PyVal.list xs ∧ ∀ x ∈ xs, isDict x = true) :
    ∃ l2 l3 l4,
      render_rich_answer (PyVal.dict p) =
        some ([DisplaySection.answer a] ++ l2 ++ l3 ++ l4) ∧
      ((l2 ≠ []) ↔ ∃ s, dget p "sql" = some (PyVal.str s) ∧ s ≠ "") ∧
      (∀ x ∈ l2, ∃ s, dget p "sql" = some (PyVal.str s) ∧
        x = DisplaySection.sqlDebug s) ∧
      ((l3 ≠ []) ↔ ∃ rs, dget p "rows" = some (PyVal.list rs) ∧ rs ≠ []) ∧
      (∀ x ∈ l3, ∃ rs, dget p "rows" = some (PyVal.list rs) ∧
        x = rows_section (PyVal.list rs)) ∧
      ((l4 ≠ []) ↔ ∃ xs, dget p "sources" = some (PyVal.list xs) ∧ xs ≠ []) ∧
      (∀ x ∈ l4, ∃ items, x = DisplaySection.sources items) := by
  have hansv : pyGetD p "answer" (PyVal.str "") = a := by simp [pyGetD, ha]
  have hsqlsec : ∃ l2,
      (if hasKey p "sql" && truthy (pyGet p "sql") then
        [DisplaySection.sqlDebug (pyStr (pyGet p "sql"))] else []) = l2 ∧
      ((l2 ≠ []) ↔ ∃ s, dget p "sql" = some (PyVal.str s) ∧ s ≠ "") ∧
      (∀ x ∈ l2, ∃ s, dget p "sql" = some (PyVal.str s) ∧
        x = DisplaySection.sqlDebug s) := by
    cases hq : dget p "sql" with
    | none =>
        have hk : hasKey p "sql" = false := by simp [hasKey, hq]
        exact ⟨[], by simp [hk], by simp [hq], by simp⟩
    | some v =>
        obtain ⟨s, rfl⟩ := hsql v hq
        have hk : hasKey p "sql" = true := by simp [hasKey, hq]
        have hg : pyGet p "sql" = PyVal.str s := by simp [pyGet, hq]
        by_cases hs : s = ""
        · subst hs
          exact ⟨[], by simp [hk, hg, truthy], by simp [hq], by simp⟩
        · refine ⟨[DisplaySection.sqlDebug s], ?_, ?_, ?_⟩
          · simp [hk, hg, truthy, hs, pyStr]
          · simp [hq, hs]
          · intro x hx
            rw [List.mem_singleton] at hx
            exact ⟨s, rfl, hx⟩
  have hrowssec : ∃ l3,
      (if hasKey p "rows" && truthy (pyGet p "rows") then
        [rows_section (pyGet p "rows")] else []) = l3 ∧
      ((l3 ≠ []) ↔ ∃ rs, dget p "rows" = some (PyVal.list rs) ∧ rs ≠ []) ∧
      (∀ x ∈ l3, ∃ rs, dget p "rows" = some (PyVal.list rs) ∧
        x = rows_section (PyVal.list rs)) := by
    cases hq : dget p "rows" with
    | none =>
        have hk : hasKey p "rows" = false := by simp [hasKey, hq]
        exact ⟨[], by simp [hk], by simp [hq], by simp⟩
    | some v =>
        obtain ⟨rs, rfl⟩ := hrows v hq
        have hk : hasKey p "rows" = true := by simp [hasKey, hq]
        have hg : pyGet p "rows" = PyVal.list rs := by simp [pyGet, hq]
        by_cases hrse : rs = []
        · subst hrse
          exact ⟨[], by simp [hk, hg, truthy], by simp [hq], by simp⟩
        · refine ⟨[rows_section (PyVal.list rs)], ?_, ?_, ?_⟩
          · obtain ⟨y, ys, rfl⟩ := List.exists_cons_of_ne_nil hrse
            simp [hk, hg, truthy]
          · simp [hq, hrse]
          · intro x hx
            rw [List.mem_singleton] at hx
            exact ⟨rs, rfl, hx⟩
  obtain ⟨l2, hl2, hl2iff, hl2mem⟩ := hsqlsec
  obtain ⟨l3, hl3, hl3iff, hl3mem⟩ := hrowssec
  cases hqs : dget p "sources" with
  | none =>
      refine ⟨l2, l3, [], ?_, hl2iff, hl2mem, hl3iff, hl3mem, ?_, ?_⟩
      · have hk : hasKey p "sources" = false := by simp [hasKey, hqs]
        simp only [render_rich_answer]
        rw [hl2, hl3, hansv, hk]
        simp
      · simp [hqs]
      · simp
  | some v =>
      obtain ⟨xs, rfl, hall⟩ := hsrc v hqs
      have hk : hasKey p "sources" = true := by simp [hasKey, hqs]
      have hg : pyGet p "sources" = PyVal.list xs := by simp [pyGet, hqs]
      by_cases hxe : xs = []
      · subst hxe
        refine ⟨l2, l3, [], ?_, hl2iff, hl2mem, hl3iff, hl3mem, ?_, ?_⟩
        · simp only [render_rich_answer]
          rw [hl2, hl3, hansv, hk, hg]
          simp [truthy]
        · simp [hqs]
        · simp
      · obtain ⟨items, hit, -, -⟩ := render_sources_all_dicts 1 xs hall
        refine ⟨l2, l3, [DisplaySection.sources items], ?_,
          hl2iff, hl2mem, hl3iff, hl3mem, ?_, ?_⟩
        · obtain ⟨y, ys, rfl⟩ := List.exists_cons_of_ne_nil hxe
          simp only [render_rich_answer]
          rw [hl2, hl3, hansv, hk, hg]
          simp [truthy, hit]
        · simp [hqs, hxe]
        · intro x hx
          rw [List.mem_singleton] at hx
          exact ⟨items, hx⟩

/-- A concrete payload exercising all four sections, with an empty
answer string. -/
def payload_example : List (String × PyVal) :=
  [("answer", PyVal.str ""),
   ("sql", PyVal.str "SELECT 1"),
   ("rows", PyVal.list [PyVal.dict [("city", PyVal.str "NYC"), ("pop", PyVal.int 8)]]),
   ("sources", PyVal.list [PyVal.dict [("title", PyVal.str "A")]])]

/-- C4 witness: on the concrete payload the renderer emits the four
sections in order, leading with the (empty) answer text. -/
theorem render_section_order_witness :
    dget payload_example "answer" = some (PyVal.str "") ∧
    render_rich_answer (PyVal.dict payload_example) =
      some [DisplaySection.answer (PyVal.str ""),
            DisplaySection.sqlDebug "SELECT 1",
            DisplaySection.rowsTable [[("city", PyVal.str "NYC"), ("pop", PyVal.int 8)]],
            DisplaySection.sources [⟨1, PyVal.str "A", "", Option.none, Option.none⟩]] ∧
    ∃ l2 l3 l4,
      render_rich_answer (PyVal.dict payload_example) =
        some ([DisplaySection.answer (PyVal.str "")] ++ l2 ++ l3 ++ l4) ∧
      l2 ≠ [] ∧ l3 ≠ [] ∧ l4 ≠ [] := by
  refine ⟨rfl, by rfl, ?_⟩
  obtain ⟨l2, l3, l4, heq, hiff2, -, hiff3, -, hiff4, -⟩ :=
    render_section_order payload_example (PyVal.str "") rfl
      (by intro v hv
          have h2 : some (PyVal.str "SELECT 1") = some v := hv
          exact ⟨"SELECT 1", (Option.some.inj h2).symm⟩)
      (by intro v hv
          have h2 : some (PyVal.list
            [PyVal.dict [("city", PyVal.str "NYC"), ("pop", PyVal.int 8)]]) = some v := hv
          exact ⟨[PyVal.dict [("city", PyVal.str "NYC"), ("pop", PyVal.int 8)]],
            (Option.some.inj h2).symm⟩)
      (by intro v hv
          have h2 : some (PyVal.list [PyVal.dict [("title", PyVal.str "A")]]) = some v := hv
          exact ⟨[PyVal.dict [("title", PyVal.str "A")]],
            (Option.some.inj h2).symm, by decide⟩)
  refine ⟨l2, l3, l4, heq, ?_, ?_, ?_⟩
  · exact hiff2.mpr ⟨"SELECT 1", rfl, by decide⟩
  · exact hiff3.mpr ⟨[PyVal.dict [("city", PyVal.str "NYC"), ("pop", PyVal.int 8)]],
      rfl, by simp⟩
  · exact hiff4.mpr ⟨[PyVal.dict [("title", PyVal.str "A")]], rfl, by simp⟩
